import Mathlib

/-!
# Verification of the `notifiy.py` Willie notification module

Shallow embedding of `src/modules/notifiy.py`: the subscription registry
(a table with columns `pkey | nick | service | parameter`), the
administrative add/remove operations, and the mention-detection /
dispatch loop `nick_detect`, together with the two delivery functions
`notify_pushover` and `notify_email`.

The registry table is modelled as a `List Row` in insertion order; SQL
`SELECT ... WHERE` is list filtering, `INSERT` is appending, `DELETE
WHERE pkey=k` is filtering out that key.  Python exceptions are modelled
with `Except PyError`; external deliveries (a pushover push, an SMTP
send) are recorded as `Effect` values.  The ambient process state that
the Python code reads (whether `import pushover` succeeded, whether
`pushover.init` was called, whether the push / SMTP transports succeed)
is an `Env` record.
-/

deriving instance DecidableEq for Except

/-- One row of the notification table: columns `pkey, nick, service,
parameter` (schema created in `setup`, primary key `pkey`).  `pkey` is a
Python integer, hence `Int`. -/
structure Row where
  pkey : Int
  nick : String
  service : String
  parameter : String
deriving DecidableEq, Repr

/-- Python exceptions that the notification functions can raise. -/
inductive PyError where
  /-- Raised by the guard `if pushover:` when the name `pushover` is
  undefined (the `import pushover` at module load failed). -/
  | nameError
  /-- Raised by `pushover.Client(...).send_message(...)` because
  `pushover.init(app_api)` was never called. -/
  | pushoverNotInited
  /-- the push service rejected or could not complete the send. -/
  | pushoverSendFailed
  /-- Raised by `SMTP.sendmail` (transport / authentication failure). -/
  | smtpError
deriving DecidableEq, Repr

/-- The e-mail message built by `notify_email` (MIMEText headers plus body). -/
structure Email where
  subject : String
  fromAddr : String
  toAddr : String
  body : String
deriving DecidableEq, Repr

/-- An observable delivery performed on an external service. -/
inductive Effect where
  /-- A push send, `pushover.Client(row[3]).send_message(message)`. -/
  | push (userToken : String) (message : String)
  /-- A mail send, `SMTP.sendmail(email_address, [row[3]], msg.as_string())`. -/
  | email (envelopeFrom : String) (recipients : List String) (msg : Email)
deriving DecidableEq, Repr

/-- Ambient process state read by the delivery functions:
module-import success, pushover initialisation, transport health, and
the configuration values `bot.config.core.nick` /
`bot.config.notify.email_address`. -/
structure Env where
  /-- True when `import pushover` succeeded, so the name `pushover` is defined. -/
  pushoverImported : Bool
  /-- True when `pushover.init(app_api)` was called during `setup` (a
  pushover application token was configured). -/
  pushoverInited : Bool
  /-- the push service accepts the send (reachable, token valid). -/
  pushoverSendOk : Bool
  /-- the SMTP session can deliver mail. -/
  smtpOk : Bool
  coreNick : String
  emailAddress : String
deriving DecidableEq, Repr

/-- The computation in `setup` of the global `PUSHOVER` availability
flag: when the module imported, the configured token is read and, if it
is truthy and distinct from the literal string none, `pushover.init` is
called; otherwise `PUSHOVER = False`.  Here `Option.none` models an
absent config value.  Note that `setup` only flips this module-global
flag; the `SERVICES` dispatch table is a module constant and is never
updated from it. -/
def setup_PUSHOVER_flag (imported : Bool) (app_api : Option String) : Bool :=
  imported &&
    (match app_api with
     | none => false
     | some k => !(k == "") && !(k == "none"))

/-- The function `notify_pushover(bot, row, message)`.  The guard is `if pushover:` —
the truthiness of the *module object*, not the `PUSHOVER` flag computed
in `setup`: it raises `NameError` when the import failed (so the
`else: raise ValueError(...)` branch is unreachable), and otherwise
builds a `Client` and sends, which raises when `pushover.init` was never
called or the service fails. -/
def notify_pushover (env : Env) (row : Row) (message : String) :
    Except PyError Effect :=
  if env.pushoverImported then
    if env.pushoverInited then
      if env.pushoverSendOk then Except.ok (Effect.push row.parameter message)
      else Except.error PyError.pushoverSendFailed
    else Except.error PyError.pushoverNotInited
  else Except.error PyError.nameError

/-- The function `notify_email(bot, row, message)`: builds a `MIMEText`
whose Subject is the bracketed bot nick (from `bot.config.core.nick`)
followed by a space, the first 20 characters of the message, and an
ellipsis; From is the configured address; To is `row[3]`; then calls
`SMTP.sendmail(email_address, [row[3]], msg.as_string())`. -/
def notify_email (env : Env) (row : Row) (message : String) :
    Except PyError Effect :=
  let msg : Email :=
    { subject := "[" ++ env.coreNick ++ "] " ++
        String.mk (message.toList.take 20) ++ "..."
      fromAddr := env.emailAddress
      toAddr := row.parameter
      body := message }
  if env.smtpOk then
    Except.ok (Effect.email env.emailAddress [row.parameter] msg)
  else Except.error PyError.smtpError

/-- The two dispatch targets of the module-level dict
`SERVICES`, which maps the key pushover to `notify_pushover` and the
key email to `notify_email`. -/
inductive ServiceFn where
  | pushover
  | email
deriving DecidableEq, Repr

/-- The lookup `SERVICES.get(service, None)`: dictionary lookup in the constant
two-entry dict. -/
def SERVICES_get (s : String) : Option ServiceFn :=
  if s = "pushover" then some ServiceFn.pushover
  else if s = "email" then some ServiceFn.email
  else none

/-- The per-row body of the inner loop of `nick_detect`:
`func = SERVICES.get(row[2], None); if func: func(bot, row, message)`.
An unknown service yields no call at all (and no delivery); a known one
performs its delivery or raises. -/
def dispatch_row (env : Env) (row : Row) (message : String) :
    Except PyError (List Effect) :=
  match SERVICES_get row.service with
  | none => Except.ok []
  | some ServiceFn.pushover =>
      (notify_pushover env row message).map (fun e => [e])
  | some ServiceFn.email =>
      (notify_email env row message).map (fun e => [e])

/-- Tests whether `needle` occurs at the head of `hay`. -/
def leadsWith : List Char → List Char → Bool
  | [], _ => true
  | _ :: _, [] => false
  | c :: cs, d :: ds => c == d && leadsWith cs ds

/-- Tests whether `needle` occurs somewhere in `hay` (Python `needle in hay` on strings). -/
def occursIn : List Char → List Char → Bool
  | needle, [] => leadsWith needle []
  | needle, d :: ds => leadsWith needle (d :: ds) || occursIn needle ds

/-- Python `str.lower()` (restricted to per-character case mapping). -/
def py_lower (s : String) : List Char :=
  s.toList.map Char.toLower

/-- The matcher test, lowercased nick contained in lowercased message:
case-insensitive substring containment. -/
def py_lower_in (nick message : String) : Bool :=
  occursIn (py_lower nick) (py_lower message)

/-- The SELECT-where-nick query issued by `nick_detect`: returns the
matching rows and leaves the table unchanged. -/
def select_where_nick (db : List Row) (n : String) : List Row × List Row :=
  (db.filter (fun r => r.nick == n), db)

/-- The inner `for row in connect.execute(...)` loop of `nick_detect`:
dispatch each selected row in order, accumulating deliveries; a raised
exception propagates (there is no `try`/`except` in the source). -/
def run_rows (env : Env) (message : String) :
    List Row → List Effect → Except PyError (List Effect)
  | [], acc => Except.ok acc
  | row :: rest, acc =>
    match dispatch_row env row message with
    | Except.error e => Except.error e
    | Except.ok effs => run_rows env message rest (acc ++ effs)

/-- The outer `for nick in nicks:` loop of `nick_detect`, threading the
registry table through each `SELECT`.  A raised exception propagates
out, abandoning the remaining nicknames. -/
def run_nicks (env : Env) (message : String) :
    List String → List Row → List Effect →
    Except PyError (List Effect) × List Row
  | [], db, acc => (Except.ok acc, db)
  | n :: rest, db, acc =>
    if py_lower_in n message then
      match run_rows env message (select_where_nick db n).1 acc with
      | Except.error e => (Except.error e, (select_where_nick db n).2)
      | Except.ok acc2 => run_nicks env message rest (select_where_nick db n).2 acc2
    else run_nicks env message rest db acc

/-- The rule callback `nick_detect(bot, message)`: fetch the distinct nicknames present in
the registry (the external store call `notifydb.keys` on the nick
column — modelled per the spec contract of the store, which promises
every distinct nickname having at least one record), and for each nickname
whose lowercased form occurs in the lowercased message, dispatch every
row registered for exactly that nickname.  Returns the deliveries
performed (or the propagated exception) together with the final registry
state. -/
def nick_detect (env : Env) (db : List Row) (message : String) :
    Except PyError (List Effect) × List Row :=
  run_nicks env message ((db.map (fun r => r.nick)).dedup) db []

/-- The function `get_new_pkey(notifydb)`: one for an empty table, otherwise
`max(pkeys) + 1`. -/
def get_new_pkey (db : List Row) : Int :=
  match db.map (fun r => r.pkey) with
  | [] => 1
  | p :: ps => ps.foldl max p + 1

/-- The function `add_new_notify(connect, table_name, pkey, nick,
service, parameter)`: a single INSERT of the new row, then commit. -/
def add_new_notify (db : List Row) (pkey : Int) (n s p : String) : List Row :=
  db ++ [{ pkey := pkey, nick := n, service := s, parameter := p }]

/-- The `add_notification` command body (after admin/privmsg guards and
argument parsing): insert with the freshly computed pkey.  Returns the
new table and the assigned id. -/
def add_notification (db : List Row) (n s p : String) : List Row × Int :=
  (add_new_notify db (get_new_pkey db) n s p, get_new_pkey db)

/-- Exact match on the `(nick, service, parameter)` columns, as in the
`WHERE` clause of the `SELECT` in `remove_notification`. -/
def row_matches (r : Row) (n s p : String) : Bool :=
  r.nick == n && r.service == s && r.parameter == p

/-- The `remove_notification` command body: `SELECT` all rows matching
the `(nick, service, parameter)` triple, then for each such row echo it
and `DELETE ... WHERE pkey={row[0]}`.  Returns the echoed (removed) rows
and the resulting table. -/
def remove_notification (db : List Row) (n s p : String) :
    List Row × List Row :=
  let matching := db.filter (fun r => row_matches r n s p)
  (matching,
   matching.foldl (fun acc row => acc.filter (fun r => !(r.pkey == row.pkey))) db)

/-- The registry-store read used by the round-trip properties of the
spec: all rows whose `nick` column equals `n` exactly (the
SELECT-where-nick of `nick_detect`). -/
def list_by_nickname (db : List Row) (n : String) : List Row :=
  (select_where_nick db n).1

/-!
## Spec-side definitions and helper lemmas
-/

/-- Modelled from the spec (matcher step 2): the distinct registered
nicknames whose lowercased form occurs as a substring of the lowercased
message. -/
def matching_nicks (db : List Row) (message : String) : List String :=
  ((db.map (fun r => r.nick)).dedup).filter (fun n => py_lower_in n message)

/-- Modelled from the spec (matcher step 3): dispatch every record of
every nickname in the given list, unconditionally. -/
def run_nicks_all (env : Env) (message : String) :
    List String → List Row → List Effect →
    Except PyError (List Effect) × List Row
  | [], db, acc => (Except.ok acc, db)
  | n :: rest, db, acc =>
    match run_rows env message (select_where_nick db n).1 acc with
    | Except.error e => (Except.error e, (select_where_nick db n).2)
    | Except.ok acc2 => run_nicks_all env message rest (select_where_nick db n).2 acc2

/-- Modelled from the spec (matcher algorithm): dispatch exactly the
records of the matching nicknames. -/
def nick_detect_spec (env : Env) (db : List Row) (message : String) :
    Except PyError (List Effect) × List Row :=
  run_nicks_all env message (matching_nicks db message) db []

theorem run_nicks_eq_filtered (env : Env) (m : String) :
    ∀ (ns : List String) (db : List Row) (acc : List Effect),
      run_nicks env m ns db acc =
        run_nicks_all env m (ns.filter (fun n => py_lower_in n m)) db acc := by
  intro ns
  induction ns with
  | nil => intro db acc; rfl
  | cons n rest ih =>
    intro db acc
    cases h : py_lower_in n m with
    | true =>
      simp only [run_nicks, run_nicks_all, List.filter_cons, h, if_true]
      cases hr : run_rows env m (select_where_nick db n).1 acc with
      | error e => rfl
      | ok acc2 => exact ih _ _
    | false =>
      simp only [run_nicks, List.filter_cons, h, Bool.false_eq_true, if_false]
      exact ih db acc

theorem run_nicks_snd (env : Env) (m : String) :
    ∀ (ns : List String) (db : List Row) (acc : List Effect),
      (run_nicks env m ns db acc).2 = db := by
  intro ns
  induction ns with
  | nil => intro db acc; rfl
  | cons n rest ih =>
    intro db acc
    cases h : py_lower_in n m with
    | true =>
      simp only [run_nicks, h, if_true]
      cases hr : run_rows env m (select_where_nick db n).1 acc with
      | error e => rfl
      | ok acc2 => exact ih db acc2
    | false =>
      simp only [run_nicks, h, Bool.false_eq_true, if_false]
      exact ih db acc

/-!
## Claims
-/

theorem leadsWith_iff : ∀ (a b : List Char), leadsWith a b = true ↔ a <+: b := by
  intro a
  induction a with
  | nil =>
    intro b
    simp [leadsWith]
  | cons c cs ih =>
    intro b
    cases b with
    | nil => simp [leadsWith]
    | cons d ds =>
      simp [leadsWith, List.cons_prefix_cons, ih ds, Bool.and_eq_true, beq_iff_eq]

theorem occursIn_iff : ∀ (b a : List Char), occursIn a b = true ↔ a <:+: b := by
  intro b
  induction b with
  | nil =>
    intro a
    simp [occursIn, leadsWith_iff]
  | cons d ds ih =>
    intro a
    simp [occursIn, Bool.or_eq_true, leadsWith_iff, ih, List.infix_cons_iff]

/-- C1: mention matching is case-insensitive and substring-based — the
matcher dispatches the records of a registered nickname exactly when the
lowercased message contains the lowercased nickname as a substring, with
no word-boundary requirement (so "cadairable" matches the nickname
"cadair").  First conjunct: the containment test is exactly the
substring (infix) relation on the lowercased character sequences.
Second: `nick_detect` coincides with the spec-side matcher
`nick_detect_spec`, which iterates over precisely the nicknames passing
that test.  Finally the examples from the spec. -/
theorem mention_matching_characterization :
    (∀ (nick m : String),
        py_lower_in nick m = true ↔ py_lower nick <:+: py_lower m) ∧
    (∀ (env : Env) (db : List Row) (m : String),
        nick_detect env db m = nick_detect_spec env db m) ∧
    py_lower_in "cadair" "cadairable thing" = true ∧
    py_lower_in "cadair" "Hey CADAIR, you there?" = true ∧
    py_lower_in "cadair" "no mention here" = false := by
  refine ⟨?_, ?_, by decide, by decide, by decide⟩
  · intro nick m
    exact occursIn_iff (py_lower m) (py_lower nick)
  · intro env db m
    exact run_nicks_eq_filtered env m _ db []

/-- C10: processing an inbound chat message never modifies the
subscription registry — `nick_detect` returns the registry it was given,
whatever the environment, registry and message (the matcher only issues
reads). -/
theorem nick_detect_preserves_registry :
    ∀ (env : Env) (db : List Row) (m : String),
      (nick_detect env db m).2 = db :=
  fun env db m => run_nicks_snd env m _ db []

theorem run_rows_ok_all (env : Env) (m : String) :
    ∀ (rows : List Row) (acc effs : List Effect),
      run_rows env m rows acc = Except.ok effs →
      ∀ r ∈ rows, ∃ es, dispatch_row env r m = Except.ok es := by
  intro rows
  induction rows with
  | nil =>
    intro acc effs _ r hr
    cases hr
  | cons row rest ih =>
    intro acc effs h r hr
    cases hd : dispatch_row env row m with
    | error e =>
      rw [run_rows, hd] at h
      cases h
    | ok es =>
      rw [run_rows, hd] at h
      rcases List.mem_cons.mp hr with rfl | hr2
      · exact ⟨es, hd⟩
      · exact ih _ _ h r hr2

theorem run_nicks_ok_all (env : Env) (m : String) :
    ∀ (ns : List String) (db : List Row) (acc effs : List Effect)
      (dbf : List Row),
      run_nicks env m ns db acc = (Except.ok effs, dbf) →
      ∀ n ∈ ns, py_lower_in n m = true →
      ∀ r ∈ db.filter (fun r => r.nick == n),
        ∃ es, dispatch_row env r m = Except.ok es := by
  intro ns
  induction ns with
  | nil =>
    intro db acc effs dbf _ n hn
    cases hn
  | cons n0 rest ih =>
    intro db acc effs dbf h n hn hmatch r hr
    cases h0 : py_lower_in n0 m with
    | true =>
      rw [run_nicks, if_pos h0] at h
      cases hres : run_rows env m (select_where_nick db n0).1 acc with
      | error e =>
        rw [hres] at h
        cases h
      | ok acc2 =>
        rw [hres] at h
        rcases List.mem_cons.mp hn with rfl | hn2
        · exact run_rows_ok_all env m _ _ _ hres r hr
        · exact ih db acc2 effs dbf h n hn2 hmatch r hr
    | false =>
      rw [run_nicks, if_neg (by simp [h0])] at h
      rcases List.mem_cons.mp hn with rfl | hn2
      · rw [h0] at hmatch
        cases hmatch
      · exact ih db acc effs dbf h n hn2 hmatch r hr

/-- Registry and environment exhibiting a delivery failure inside the
matcher loop: the first record of alice uses the email service and the
SMTP send fails; the second record uses pushover, which is fully
available. -/
def env_failing_smtp : Env :=
  { pushoverImported := true, pushoverInited := true, pushoverSendOk := true,
    smtpOk := false, coreNick := "bot", emailAddress := "bot@example.org" }

/-- Two subscriptions for alice: a failing email one first, then a
perfectly deliverable pushover one. -/
def db_two_alice : List Row :=
  [⟨1, "alice", "email", "a@example.org"⟩, ⟨2, "alice", "pushover", "tok"⟩]

/-- C2 counterexample: the claim that a delivery failure is caught and
reported locally and never aborts the iteration is false.  In this
concrete state the email delivery for the first record raises; the
exception escapes `nick_detect` to its caller (the result is the error,
not a report-and-continue), and the second matching record — whose
dispatch on its own succeeds — is never delivered. -/
theorem delivery_failure_aborts_matcher_cex :
    (nick_detect env_failing_smtp db_two_alice "hi alice").1 =
      Except.error PyError.smtpError ∧
    dispatch_row env_failing_smtp ⟨2, "alice", "pushover", "tok"⟩ "hi alice" =
      Except.ok [Effect.push "tok" "hi alice"] := by
  decide

/-- C2 amended: there is no failure isolation in the matcher — a
delivery failure raised while dispatching one matching record propagates
out of `nick_detect` as an exception, so the matcher never returns a
result list and the remaining matching records are not evaluated.
Formally: whenever some record of the registry matches the message and
its dispatch raises, `nick_detect` itself returns an error. -/
theorem delivery_failure_propagates :
    ∀ (env : Env) (db : List Row) (m : String) (row : Row),
      row ∈ db → py_lower_in row.nick m = true →
      (∃ e, dispatch_row env row m = Except.error e) →
      ∃ e2, (nick_detect env db m).1 = Except.error e2 := by
  intro env db m row hmem hmatch herr
  rcases herr with ⟨e, herr⟩
  rcases hres : nick_detect env db m with ⟨res, dbf⟩
  cases res with
  | error e2 =>
    exact ⟨e2, rfl⟩
  | ok effs =>
    exfalso
    have hks : row.nick ∈ (db.map (fun r => r.nick)).dedup :=
      List.mem_dedup.mpr (List.mem_map_of_mem _ hmem)
    have hfr : row ∈ db.filter (fun r => r.nick == row.nick) :=
      List.mem_filter.mpr ⟨hmem, by simp⟩
    rcases run_nicks_ok_all env m _ db [] effs dbf hres row.nick hks hmatch
        row hfr with ⟨es, hok⟩
    rw [herr] at hok
    cases hok

/-- C2 amended, witness: in the failing-SMTP state the single record of
bob matches "bob hi", its dispatch raises, and `nick_detect` indeed
surfaces an error. -/
theorem delivery_failure_propagates_witness :
    ((⟨1, "bob", "email", "b@example.org"⟩ : Row) ∈
        ([⟨1, "bob", "email", "b@example.org"⟩] : List Row)) ∧
    py_lower_in "bob" "bob hi" = true ∧
    (∃ e, dispatch_row env_failing_smtp ⟨1, "bob", "email", "b@example.org"⟩
        "bob hi" = Except.error e) ∧
    ∃ e2, (nick_detect env_failing_smtp
        [⟨1, "bob", "email", "b@example.org"⟩] "bob hi").1 = Except.error e2 :=
  ⟨by decide, by decide, ⟨PyError.smtpError, by decide⟩,
    delivery_failure_propagates env_failing_smtp
      [⟨1, "bob", "email", "b@example.org"⟩] "bob hi"
      ⟨1, "bob", "email", "b@example.org"⟩
      (by decide) (by decide) ⟨PyError.smtpError, by decide⟩⟩

theorem le_foldl_max_of_le :
    ∀ (ps : List Int) (p q : Int), p ≤ q → p ≤ ps.foldl max q := by
  intro ps
  induction ps with
  | nil => intro p q h; exact h
  | cons r t ih =>
    intro p q h
    exact ih p (max q r) (le_trans h (le_max_left q r))

theorem le_foldl_max_of_mem :
    ∀ (ps : List Int) (q x : Int), x ∈ ps → x ≤ ps.foldl max q := by
  intro ps
  induction ps with
  | nil => intro q x h; cases h
  | cons r t ih =>
    intro q x h
    rcases List.mem_cons.mp h with rfl | h2
    · exact le_foldl_max_of_le t x (max q x) (le_max_right q x)
    · exact ih (max q r) x h2

theorem foldl_max_mem :
    ∀ (ps : List Int) (q : Int), ps.foldl max q = q ∨ ps.foldl max q ∈ ps := by
  intro ps
  induction ps with
  | nil => intro q; exact Or.inl rfl
  | cons r t ih =>
    intro q
    rw [List.foldl_cons]
    rcases ih (max q r) with h | h
    · rw [h]
      rcases max_choice q r with h2 | h2
      · exact Or.inl h2
      · exact Or.inr (by rw [h2]; exact List.mem_cons_self r t)
    · exact Or.inr (List.mem_cons_of_mem r h)

/-- Every pkey already present in the table is strictly below the value
`get_new_pkey` assigns next. -/
theorem pkey_lt_get_new_pkey :
    ∀ (db : List Row) (r : Row), r ∈ db → r.pkey < get_new_pkey db := by
  intro db r hr
  have hm : r.pkey ∈ db.map (fun r => r.pkey) := List.mem_map_of_mem _ hr
  cases hmap : db.map (fun r => r.pkey) with
  | nil => rw [hmap] at hm; cases hm
  | cons p ps =>
    rw [hmap] at hm
    unfold get_new_pkey
    rw [hmap]
    have hle : r.pkey ≤ ps.foldl max p := by
      rcases List.mem_cons.mp hm with h2 | h2
      · exact le_foldl_max_of_le ps r.pkey p (le_of_eq h2)
      · exact le_foldl_max_of_mem ps p r.pkey h2
    exact Int.lt_add_one_iff.mpr hle

/-- On a nonempty table, `get_new_pkey` is one more than the pkey of
some stored row that carries the maximal pkey. -/
theorem get_new_pkey_eq_max_add_one :
    ∀ (db : List Row), db ≠ [] →
      ∃ r, r ∈ db ∧ get_new_pkey db = r.pkey + 1 ∧
        ∀ r2 ∈ db, r2.pkey ≤ r.pkey := by
  intro db hne
  cases hmap : db.map (fun r => r.pkey) with
  | nil =>
    exact absurd (List.map_eq_nil_iff.mp hmap) hne
  | cons p ps =>
    have hmax_mem : ps.foldl max p ∈ db.map (fun r => r.pkey) := by
      rw [hmap]
      rcases foldl_max_mem ps p with h | h
      · rw [h]
        exact List.mem_cons_self p ps
      · exact List.mem_cons_of_mem p h
    rcases List.mem_map.mp hmax_mem with ⟨r, hr, hrpk⟩
    refine ⟨r, hr, ?_, ?_⟩
    · unfold get_new_pkey
      rw [hmap, hrpk]
    · intro r2 hr2
      have : r2.pkey ∈ db.map (fun r => r.pkey) := List.mem_map_of_mem _ hr2
      rw [hmap] at this
      rw [hrpk]
      rcases List.mem_cons.mp this with h2 | h2
      · exact le_foldl_max_of_le ps r2.pkey p (le_of_eq h2)
      · exact le_foldl_max_of_mem ps p r2.pkey h2

/-- A straight-line sequence of `add_notification` calls (no concurrent
interleaving): returns the final table and the assigned ids in call
order. -/
def run_adds : List Row → List (String × String × String) → List Row × List Int
  | db, [] => (db, [])
  | db, (n, s, p) :: rest =>
    ((run_adds (add_notification db n s p).1 rest).1,
     (add_notification db n s p).2 :: (run_adds (add_notification db n s p).1 rest).2)

theorem run_adds_ids_increasing :
    ∀ (ops : List (String × String × String)) (db : List Row),
      (run_adds db ops).2.Pairwise (· < ·) ∧
      ∀ i ∈ (run_adds db ops).2, ∀ r ∈ db, r.pkey < i := by
  intro ops
  induction ops with
  | nil =>
    intro db
    exact ⟨List.Pairwise.nil, fun i hi => absurd hi (List.not_mem_nil i)⟩
  | cons op rest ih =>
    rcases op with ⟨n, s, p⟩
    intro db
    rcases ih (add_notification db n s p).1 with ⟨ih_pw, ih_gt⟩
    constructor
    · rw [run_adds]
      refine List.Pairwise.cons ?_ ih_pw
      intro j hj
      have hmem : (⟨get_new_pkey db, n, s, p⟩ : Row) ∈ (add_notification db n s p).1 :=
        List.mem_append.mpr (Or.inr (List.mem_singleton.mpr rfl))
      exact ih_gt j hj _ hmem
    · intro i hi r hr
      rw [run_adds] at hi
      rcases List.mem_cons.mp hi with rfl | hi2
      · exact pkey_lt_get_new_pkey db r hr
      · exact ih_gt i hi2 r (List.mem_append.mpr (Or.inl hr))

/-- C3: under a straight-line sequence of add operations starting from
any registry state, each assigned id equals max(existing ids) + 1 (the
last two conjuncts: 1 on an empty registry, and one more than the
maximal stored pkey otherwise), every assigned id is strictly greater
than all ids assigned earlier in the sequence (strict increase), and the
assigned ids are pairwise distinct; each is also strictly above every id
present in the starting registry. -/
theorem assigned_ids_strictly_increasing :
    ∀ (db : List Row) (ops : List (String × String × String)),
      (run_adds db ops).2.Pairwise (· < ·) ∧
      (run_adds db ops).2.Nodup ∧
      (∀ i ∈ (run_adds db ops).2, ∀ r ∈ db, r.pkey < i) ∧
      (db = [] → get_new_pkey db = 1) ∧
      (db ≠ [] → ∃ r, r ∈ db ∧ get_new_pkey db = r.pkey + 1 ∧
        ∀ r2 ∈ db, r2.pkey ≤ r.pkey) := by
  intro db ops
  rcases run_adds_ids_increasing ops db with ⟨hpw, hgt⟩
  refine ⟨hpw, hpw.imp (fun h => ne_of_lt h), hgt, ?_,
    get_new_pkey_eq_max_add_one db⟩
  intro h
  subst h
  rfl

/-- C3 witness: a concrete run of two adds over a one-row registry, with
the assigned ids evaluated and the theorem instantiated. -/
theorem assigned_ids_strictly_increasing_witness :
    (run_adds [⟨5, "x", "email", "e"⟩]
        [("a", "email", "p"), ("b", "pushover", "q")]).2 = [6, 7] ∧
    ((run_adds [⟨5, "x", "email", "e"⟩]
        [("a", "email", "p"), ("b", "pushover", "q")]).2.Pairwise (· < ·) ∧
      (run_adds [⟨5, "x", "email", "e"⟩]
        [("a", "email", "p"), ("b", "pushover", "q")]).2.Nodup ∧
      (∀ i ∈ (run_adds [⟨5, "x", "email", "e"⟩]
          [("a", "email", "p"), ("b", "pushover", "q")]).2,
        ∀ r ∈ ([⟨5, "x", "email", "e"⟩] : List Row), r.pkey < i) ∧
      (([⟨5, "x", "email", "e"⟩] : List Row) = [] →
        get_new_pkey [⟨5, "x", "email", "e"⟩] = 1) ∧
      (([⟨5, "x", "email", "e"⟩] : List Row) ≠ [] →
        ∃ r, r ∈ ([⟨5, "x", "email", "e"⟩] : List Row) ∧
          get_new_pkey [⟨5, "x", "email", "e"⟩] = r.pkey + 1 ∧
          ∀ r2 ∈ ([⟨5, "x", "email", "e"⟩] : List Row), r2.pkey ≤ r.pkey)) :=
  ⟨by decide,
    assigned_ids_strictly_increasing [⟨5, "x", "email", "e"⟩]
      [("a", "email", "p"), ("b", "pushover", "q")]⟩

/-- C4 counterexample: ids of deleted records are reused.  Starting from
an empty registry, add a (id 1) and b (id 2), remove the b record, then
add c: the id assigned to c is again 2, which had previously been
assigned to the since-deleted b record — so an id is not "never reused
within a registry lifetime". -/
theorem id_reuse_after_remove_cex :
    let s0 : List Row := []
    let a1 := add_notification s0 "a" "email" "x"
    let a2 := add_notification a1.1 "b" "email" "y"
    let rm := remove_notification a2.1 "b" "email" "y"
    let a3 := add_notification rm.2 "c" "email" "z"
    a2.2 = 2 ∧ a3.2 = 2 := by
  decide

/-- C4 amended: the freshly assigned id is unique with respect to the
registry as it exists at assignment time — it differs from the pkey of
every currently stored record (ids of previously deleted records may,
however, be reassigned, as the counterexample shows). -/
theorem new_pkey_fresh_for_current_registry :
    ∀ (db : List Row) (n s p : String) (r : Row),
      r ∈ db → r.pkey ≠ (add_notification db n s p).2 :=
  fun db _ _ _ r h => ne_of_lt (pkey_lt_get_new_pkey db r h)

/-- C4 amended, witness: the id assigned on a concrete one-row registry
differs from the stored pkey. -/
theorem new_pkey_fresh_for_current_registry_witness :
    ((⟨1, "a", "email", "x"⟩ : Row) ∈ ([⟨1, "a", "email", "x"⟩] : List Row)) ∧
    (⟨1, "a", "email", "x"⟩ : Row).pkey ≠
      (add_notification [⟨1, "a", "email", "x"⟩] "c" "email" "z").2 :=
  ⟨by decide,
    new_pkey_fresh_for_current_registry [⟨1, "a", "email", "x"⟩] "c" "email" "z"
      ⟨1, "a", "email", "x"⟩ (by decide)⟩

theorem foldl_delete_eq :
    ∀ (rows db : List Row),
      rows.foldl (fun acc row => acc.filter (fun r => !(r.pkey == row.pkey))) db
        = db.filter (fun r => !(rows.any (fun row2 => r.pkey == row2.pkey))) := by
  intro rows
  induction rows with
  | nil =>
    intro db
    simp
  | cons row rest ih =>
    intro db
    rw [List.foldl_cons, ih, List.filter_filter]
    apply List.filter_congr
    intro r _
    cases h1 : r.pkey == row.pkey <;> cases h2 : rest.any (fun row2 => r.pkey == row2.pkey) <;>
      simp [h1, h2]

theorem any_pkey_filter (db : List Row) (q : Row → Bool)
    (h : (db.map (fun r => r.pkey)).Nodup) (r : Row) (hr : r ∈ db) :
    (db.filter q).any (fun row2 => r.pkey == row2.pkey) = q r := by
  cases hq : q r with
  | true =>
    exact List.any_eq_true.mpr ⟨r, List.mem_filter.mpr ⟨hr, hq⟩, by simp⟩
  | false =>
    cases hA : (db.filter q).any (fun row2 => r.pkey == row2.pkey) with
    | false => rfl
    | true =>
      exfalso
      rcases List.any_eq_true.mp hA with ⟨row2, hmem2, hbeq⟩
      rcases List.mem_filter.mp hmem2 with ⟨hmem2db, hq2⟩
      have heq : r = row2 :=
        List.inj_on_of_nodup_map h hr hmem2db (by simpa using hbeq)
      rw [heq, hq2] at hq
      cases hq

/-- C7: `remove_notification` echoes exactly the records matching the
given (nickname, service, parameter) triple and deletes exactly those
records: afterwards the table is the original minus all exact matches
(records not matching the triple are untouched, in order), and listing
the records for that nickname yields none with that exact (service,
parameter) pair.  The hypothesis is the primary-key invariant of the
backing table: stored pkeys are pairwise distinct. -/
theorem remove_deletes_all_exact_matches (db : List Row) (n s p : String)
    (h : (db.map (fun r => r.pkey)).Nodup) :
    (remove_notification db n s p).1 =
      db.filter (fun r => row_matches r n s p) ∧
    (remove_notification db n s p).2 =
      db.filter (fun r => !(row_matches r n s p)) ∧
    ∀ r ∈ list_by_nickname (remove_notification db n s p).2 n,
      ¬(r.service = s ∧ r.parameter = p) := by
  have h2 : (remove_notification db n s p).2 =
      db.filter (fun r => !(row_matches r n s p)) := by
    show (db.filter (fun r => row_matches r n s p)).foldl
        (fun acc row => acc.filter (fun r => !(r.pkey == row.pkey))) db = _
    rw [foldl_delete_eq]
    apply List.filter_congr
    intro r hr
    rw [any_pkey_filter db _ h r hr]
  refine ⟨rfl, h2, ?_⟩
  intro r hrl hsp
  rcases List.mem_filter.mp hrl with ⟨hr2, hnick⟩
  rw [h2] at hr2
  rcases List.mem_filter.mp hr2 with ⟨_, hnE⟩
  have : row_matches r n s p = true := by
    simp only [row_matches]
    simp only [Bool.and_eq_true, beq_iff_eq]
    exact ⟨⟨by simpa using hnick, hsp.1⟩, hsp.2⟩
  rw [this] at hnE
  cases hnE

/-- C7 witness: removing the alice/email subscription from a three-row
registry deletes exactly that record and leaves the other two. -/
theorem remove_deletes_all_exact_matches_witness :
    (([⟨1, "alice", "email", "a@x"⟩, ⟨2, "alice", "pushover", "tok"⟩,
        ⟨3, "bob", "email", "b@x"⟩] : List Row).map (fun r => r.pkey)).Nodup ∧
    ((remove_notification [⟨1, "alice", "email", "a@x"⟩,
        ⟨2, "alice", "pushover", "tok"⟩, ⟨3, "bob", "email", "b@x"⟩]
        "alice" "email" "a@x").1 =
      ([⟨1, "alice", "email", "a@x"⟩, ⟨2, "alice", "pushover", "tok"⟩,
        ⟨3, "bob", "email", "b@x"⟩] : List Row).filter
        (fun r => row_matches r "alice" "email" "a@x") ∧
    (remove_notification [⟨1, "alice", "email", "a@x"⟩,
        ⟨2, "alice", "pushover", "tok"⟩, ⟨3, "bob", "email", "b@x"⟩]
        "alice" "email" "a@x").2 =
      ([⟨1, "alice", "email", "a@x"⟩, ⟨2, "alice", "pushover", "tok"⟩,
        ⟨3, "bob", "email", "b@x"⟩] : List Row).filter
        (fun r => !(row_matches r "alice" "email" "a@x")) ∧
    ∀ r ∈ list_by_nickname (remove_notification [⟨1, "alice", "email", "a@x"⟩,
        ⟨2, "alice", "pushover", "tok"⟩, ⟨3, "bob", "email", "b@x"⟩]
        "alice" "email" "a@x").2 "alice",
      ¬(r.service = "email" ∧ r.parameter = "a@x")) :=
  ⟨by decide,
    remove_deletes_all_exact_matches
      [⟨1, "alice", "email", "a@x"⟩, ⟨2, "alice", "pushover", "tok"⟩,
        ⟨3, "bob", "email", "b@x"⟩] "alice" "email" "a@x" (by decide)⟩

/-- C8: removing a (nickname, service, parameter) triple that matches no
record is not an error — it echoes no removed records and returns the
registry unchanged. -/
theorem remove_no_match_noop (db : List Row) (n s p : String)
    (h : ∀ r ∈ db, row_matches r n s p = false) :
    remove_notification db n s p = ([], db) := by
  have hf : db.filter (fun r => row_matches r n s p) = [] :=
    List.filter_eq_nil_iff.mpr (by intro r hr; simp [h r hr])
  show (db.filter (fun r => row_matches r n s p),
    (db.filter (fun r => row_matches r n s p)).foldl
      (fun acc row => acc.filter (fun r => !(r.pkey == row.pkey))) db) = ([], db)
  rw [hf]
  rfl

/-- C8 witness: removing a non-registered triple from a two-row registry
returns no echo and the unchanged registry. -/
theorem remove_no_match_noop_witness :
    (∀ r ∈ ([⟨1, "alice", "email", "a@x"⟩, ⟨2, "bob", "pushover", "tok"⟩] :
        List Row), row_matches r "carol" "email" "c@x" = false) ∧
    remove_notification [⟨1, "alice", "email", "a@x"⟩,
        ⟨2, "bob", "pushover", "tok"⟩] "carol" "email" "c@x" =
      ([], [⟨1, "alice", "email", "a@x"⟩, ⟨2, "bob", "pushover", "tok"⟩]) :=
  ⟨by decide,
    remove_no_match_noop [⟨1, "alice", "email", "a@x"⟩,
      ⟨2, "bob", "pushover", "tok"⟩] "carol" "email" "c@x" (by decide)⟩

theorem SERVICES_get_unknown (s : String)
    (h1 : s ≠ "pushover") (h2 : s ≠ "email") : SERVICES_get s = none := by
  simp [SERVICES_get, h1, h2]

/-- C5: a record with a service string outside the dispatch table is
accepted and stored by add (the triple is inserted as given, with no
service validation), and dispatch for it is a silent no-op.  With two
subscriptions for the same nickname — a known email one and one with an
unknown service — a matching message produces exactly one delivery (the
email) and no error reaches the matcher caller. -/
theorem unknown_service_inert_dispatch :
    ∀ (env : Env) (n s p1 p2 m : String) (i1 i2 : Int) (db : List Row),
      env.smtpOk = true → s ≠ "pushover" → s ≠ "email" →
      py_lower_in n m = true →
      (⟨get_new_pkey db, n, s, p2⟩ : Row) ∈ (add_notification db n s p2).1 ∧
      (nick_detect env [⟨i1, n, "email", p1⟩, ⟨i2, n, s, p2⟩] m).1 =
        Except.ok [Effect.email env.emailAddress [p1]
          ⟨"[" ++ env.coreNick ++ "] " ++ String.mk (m.toList.take 20) ++ "...",
            env.emailAddress, p1, m⟩] := by
  intro env n s p1 p2 m i1 i2 db hsmtp hs1 hs2 hmatch
  constructor
  · exact List.mem_append.mpr (Or.inr (List.mem_singleton.mpr rfl))
  · have hdedup : (([⟨i1, n, "email", p1⟩, ⟨i2, n, s, p2⟩] : List Row).map
        (fun r => r.nick)).dedup = [n] := by
      show ([n, n] : List String).dedup = [n]
      rw [List.dedup_cons_of_mem (List.mem_singleton.mpr rfl),
        List.dedup_cons_of_not_mem (List.not_mem_nil n), List.dedup_nil]
    show (run_nicks env m (([⟨i1, n, "email", p1⟩, ⟨i2, n, s, p2⟩] : List Row).map
        (fun r => r.nick)).dedup [⟨i1, n, "email", p1⟩, ⟨i2, n, s, p2⟩] []).1 = _
    rw [hdedup]
    rw [run_nicks, if_pos hmatch]
    have hsel : (select_where_nick [⟨i1, n, "email", p1⟩, ⟨i2, n, s, p2⟩] n).1 =
        [⟨i1, n, "email", p1⟩, ⟨i2, n, s, p2⟩] := by
      simp [select_where_nick]
    rw [hsel]
    have hd1 : dispatch_row env ⟨i1, n, "email", p1⟩ m =
        Except.ok [Effect.email env.emailAddress [p1]
          ⟨"[" ++ env.coreNick ++ "] " ++ String.mk (m.toList.take 20) ++ "...",
            env.emailAddress, p1, m⟩] := by
      show (match SERVICES_get "email" with
        | none => Except.ok []
        | some ServiceFn.pushover =>
            (notify_pushover env ⟨i1, n, "email", p1⟩ m).map (fun e => [e])
        | some ServiceFn.email =>
            (notify_email env ⟨i1, n, "email", p1⟩ m).map (fun e => [e])) = _
      rw [show SERVICES_get "email" = some ServiceFn.email from rfl]
      simp [notify_email, hsmtp, Except.map]
    have hd2 : dispatch_row env ⟨i2, n, s, p2⟩ m = Except.ok [] := by
      show (match SERVICES_get s with
        | none => Except.ok []
        | some ServiceFn.pushover =>
            (notify_pushover env ⟨i2, n, s, p2⟩ m).map (fun e => [e])
        | some ServiceFn.email =>
            (notify_email env ⟨i2, n, s, p2⟩ m).map (fun e => [e])) = _
      rw [SERVICES_get_unknown s hs1 hs2]
    simp [run_rows, hd1, hd2, run_nicks]

/-- Environment for the C5 witness: mail transport healthy. -/
def env_known_email : Env :=
  { pushoverImported := true, pushoverInited := true, pushoverSendOk := true,
    smtpOk := true, coreNick := "willie", emailAddress := "bot@example.org" }

/-- C5 witness: alice has an email subscription and an "sms"
subscription (unknown service); "hi ALICE" produces exactly the one
email delivery and no error. -/
theorem unknown_service_inert_dispatch_witness :
    env_known_email.smtpOk = true ∧
    ("sms" : String) ≠ "pushover" ∧
    ("sms" : String) ≠ "email" ∧
    py_lower_in "alice" "hi ALICE" = true ∧
    ((⟨get_new_pkey [], "alice", "sms", "55"⟩ : Row) ∈
        (add_notification [] "alice" "sms" "55").1 ∧
      (nick_detect env_known_email
          [⟨1, "alice", "email", "a@x"⟩, ⟨2, "alice", "sms", "55"⟩]
          "hi ALICE").1 =
        Except.ok [Effect.email env_known_email.emailAddress ["a@x"]
          ⟨"[" ++ env_known_email.coreNick ++ "] " ++
              String.mk ("hi ALICE".toList.take 20) ++ "...",
            env_known_email.emailAddress, "a@x", "hi ALICE"⟩]) :=
  ⟨rfl, by decide, by decide, by decide,
    unknown_service_inert_dispatch env_known_email "alice" "sms" "a@x" "55"
      "hi ALICE" 1 2 [] rfl (by decide) (by decide) (by decide)⟩

/-- Environment in which the pushover library imported but
`pushover.init` never ran, because the application-token configuration
is absent — exactly the state `setup` leaves behind when
`pushover_app_api` is not set (it only flips the `PUSHOVER` flag). -/
def env_unconfigured_pushover : Env :=
  { pushoverImported := true, pushoverInited := false, pushoverSendOk := true,
    smtpOk := true, coreNick := "bot", emailAddress := "bot@example.org" }

/-- C6, evaluation at the failing input: with push credentials never
configured, `setup` marks the capability unavailable (`PUSHOVER =
False`), yet the dispatch table still routes the service name pushover
to `notify_pushover`, and dispatching a pushover record raises — it
propagates an exception out of `nick_detect` instead of being a silent
no-op.  (When the library is missing altogether the guard itself raises
`NameError`.)  This contradicts the claim and the intent evidenced by
the `PUSHOVER` flag and the availability check in the source, which
tests the module object instead of the flag. -/
theorem pushover_unconfigured_raises :
    setup_PUSHOVER_flag true none = false ∧
    SERVICES_get "pushover" = some ServiceFn.pushover ∧
    (nick_detect env_unconfigured_pushover [⟨1, "bob", "pushover", "tok"⟩]
        "hi bob").1 = Except.error PyError.pushoverNotInited ∧
    (nick_detect
        { env_unconfigured_pushover with pushoverImported := false }
        [⟨1, "bob", "pushover", "tok"⟩] "hi bob").1 =
      Except.error PyError.nameError := by
  decide

/-- C9: every email delivery composes a message whose subject is the
fixed prefix (an open bracket, the configured bot nick, a closing
bracket and a space) followed by the first 20 characters of the message
followed by the ellipsis marker, whose sender is the configured origin
address (also the envelope sender), and whose recipient is the record
parameter (also the sole envelope recipient). -/
theorem email_composition_fields :
    ∀ (env : Env) (row : Row) (m : String), env.smtpOk = true →
      notify_email env row m =
        Except.ok (Effect.email env.emailAddress [row.parameter]
          { subject := "[" ++ env.coreNick ++ "] " ++
              String.mk (m.toList.take 20) ++ "...",
            fromAddr := env.emailAddress, toAddr := row.parameter,
            body := m }) := by
  intro env row m h
  simp [notify_email, h]

/-- C9 witness: the end-to-end example of the spec — the message "bob
check this out" mailed to bob@example.com, with the bot nick in the
subject prefix and the 18-character body fully quoted before the
ellipsis. -/
theorem email_composition_fields_witness :
    env_known_email.smtpOk = true ∧
    notify_email env_known_email ⟨1, "bob", "email", "bob@example.com"⟩
        "bob check this out" =
      Except.ok (Effect.email "bot@example.org" ["bob@example.com"]
        ⟨"[willie] bob check this out...", "bot@example.org",
          "bob@example.com", "bob check this out"⟩) :=
  ⟨rfl, by
    rw [email_composition_fields env_known_email
      ⟨1, "bob", "email", "bob@example.com"⟩ "bob check this out" rfl]
    decide⟩
